import Mathlib

/-!
Verification of the CEFR-level annotator of the LEPCSV repository.

The repository contains two JavaScript entry points:
* `4000/add_cefr_levels_offline.js` — a purely local classifier
  (`getCEFRLevelOffline`, `analyzePhrase`, `processTSVFileOffline`);
* `4000/add_cefr_levels.js` — the same local classifier duplicated verbatim
  (`getBasicCEFRLevel`, `analyzePhrase`) plus a remote lookup
  (`getCEFRLevel`, `queryAPI`).

Strings are modelled as `List Char`, one entry per UTF-16 code unit (all data
in the repository is ASCII, so this matches JavaScript string semantics,
including `.length`).  The JavaScript regular-expression classes `\s` and
`\w` and `String.prototype.trim` are modelled by their exact code-point sets;
`toLowerCase`/`toUpperCase` are modelled by their ASCII action, which is
exact on every character the lexicons and claims involve.
-/

/-- Code-point set of the JavaScript regular-expression escape `\s`
(also the character set removed by `String.prototype.trim`):
space, tab, LF, VT, FF, CR, NBSP, U+1680, U+2000–U+200A, LS, PS,
U+202F, U+205F, U+3000, U+FEFF. -/
def spaceCode (n : Nat) : Prop :=
  n = 32 ∨ (9 ≤ n ∧ n ≤ 13) ∨ n = 160 ∨ n = 5760 ∨ (8192 ≤ n ∧ n ≤ 8202) ∨
  n = 8232 ∨ n = 8233 ∨ n = 8239 ∨ n = 8287 ∨ n = 12288 ∨ n = 65279

instance (n : Nat) : Decidable (spaceCode n) := by
  unfold spaceCode; infer_instance

/-- Membership in the JavaScript `\s` class. -/
def isJsSpace (c : Char) : Bool := decide (spaceCode c.toNat)

/-- Membership in the JavaScript `\w` class: ASCII letters, digits and
underscore. -/
def isWordChar (c : Char) : Bool :=
  decide ((97 ≤ c.toNat ∧ c.toNat ≤ 122) ∨ (65 ≤ c.toNat ∧ c.toNat ≤ 90) ∨
    (48 ≤ c.toNat ∧ c.toNat ≤ 57) ∨ c.toNat = 95)

/-- Membership in the JavaScript character class `[a-z]`. -/
def isLowerAlphaChar (c : Char) : Bool := decide (97 ≤ c.toNat ∧ c.toNat ≤ 122)

/-- Action of `String.prototype.toLowerCase` on one character, restricted to
ASCII (the only case-carrying characters in the repository's data). -/
def asciiLower (c : Char) : Char :=
  if 65 ≤ c.toNat ∧ c.toNat ≤ 90 then Char.ofNat (c.toNat + 32) else c

/-- Action of `String.prototype.toUpperCase` on one character (ASCII). -/
def asciiUpper (c : Char) : Char :=
  if 97 ≤ c.toNat ∧ c.toNat ≤ 122 then Char.ofNat (c.toNat - 32) else c

/-- Model of `String.prototype.toLowerCase` (ASCII action). -/
def jsLower (l : List Char) : List Char := l.map asciiLower

/-- Model of `String.prototype.toUpperCase` (ASCII action). -/
def jsUpper (l : List Char) : List Char := l.map asciiUpper

/-- Model of `String.prototype.trim`: remove leading and trailing `\s`
characters. -/
def jsTrim (l : List Char) : List Char :=
  (l.dropWhile isJsSpace).rdropWhile isJsSpace

/-- Model of `.replace(/[^\w\s]/g, '')`: keep exactly the word characters and
the whitespace characters. -/
def stripPunct (l : List Char) : List Char :=
  l.filter (fun c => isWordChar c || isJsSpace c)

/-- Model of `.split(/\s+/).filter(word => word.length > 0)`: split at every
whitespace character and discard the empty pieces, which yields exactly the
maximal runs of non-whitespace characters, in order. -/
def wordsOf (l : List Char) : List (List Char) :=
  (l.splitOnP isJsSpace).filter (fun w => !w.isEmpty)

/-! Level machinery shared by both entry points
(lines 170-179 of both files). -/

/-- All six CEFR level strings, in ascending order of difficulty. -/
def cefrLevels : List String := ["A1", "A2", "B1", "B2", "C1", "C2"]

/-- Model of the array `levelNames = ['', 'A1', 'A2', 'B1', 'B2', 'C1', 'C2']`. -/
def levelNames : List String := ["", "A1", "A2", "B1", "B2", "C1", "C2"]

/-- Model of `levelValues[level] || 1`: the object lookup
`{'A1': 1, 'A2': 2, 'B1': 3, 'B2': 4, 'C1': 5, 'C2': 6}` with the JavaScript
falsy default `1` for any other string. -/
def levelValue (l : String) : Nat :=
  if l = "A1" then 1 else if l = "A2" then 2 else if l = "B1" then 3
  else if l = "B2" then 4 else if l = "C1" then 5 else if l = "C2" then 6 else 1

/-- Model of `Math.max(...xs)` on a nonempty list of naturals. -/
def jsMaxNat : List Nat → Nat
  | [] => 0
  | h :: t => t.foldl max h

/-- Model of the regular-expression test `/^[a-z]+$/.test(text)`: at least one
character, all in `[a-z]`. -/
def matchesLowerAlpha (l : List Char) : Bool := !l.isEmpty && l.all isLowerAlphaChar

namespace Offline

/-!
Model of `4000/add_cefr_levels_offline.js`.

The six tier sets (lines 24-118 of the file) are modelled as lists in
declaration order; `Set.has` is list membership.
-/

def a1Words : List String :=
  ["agree", "arrive", "august", "boat", "breakfast", "camera", "catch", "duck", "enjoy", 
   "invite", "love", "month", "travel", "visit", "weather", "week", "wine", "kill", "laugh", 
   "loud", "noise", "smell", "cloud", "animal", "bus", "cat", "dog", "door", "friend", "hear", 
   "help", "horse", "hospital", "leg", "open", "pull", "rabbit", "school", "see", "chicken", 
   "eat", "food", "fruit", "water", "ask", "banana", "bread", "cake", "carrot", "chocolate", 
   "always", "seven", "start", "together", "wear", "year", "home", "family", "from", "green", 
   "red", "book", "clothes", "dinner", "end", "january", "december", "the", "a", "an", "and", 
   "or", "but", "in", "on", "at", "to", "for", "of", "with", "by", "i", "you", "he", "she", "it", 
   "we", "they", "my", "your", "his", "her", "its", "our", "their", "this", "that", "these", 
   "those", "here", "there", "where", "when", "what", "who", "how", "why", "yes", "no", "not", 
   "good", "bad", "big", "small", "new", "old", "hot", "cold", "long", "short", "like", "want", 
   "need", "have", "get", "go", "come", "look", "drink", "work", "time", "day"]

def a2Words : List String :=
  ["capital", "typical", "adventure", "approach", "carefully", "create", "project", "scare", 
   "secret", "shout", "terrible", "worse", "among", "chart", "describe", "ever", "fail", "grade", 
   "instead", "library", "photograph", "several", "solve", "suddenly", "suppose", "understand", 
   "view", "appropriate", "avoid", "behave", "calm", "concern", "content", "expect", 
   "frequently", "habit", "instruct", "issue", "none", "patient", "positive", "punish", 
   "represent", "shake", "spread", "stroll", "village", "active", "adult", "age", "balance", 
   "bike", "choose", "doctor", "during", "football", "fun", "game", "heart", "golf", "increase", 
   "life", "often", "plenty", "weight", "apartment", "article", "artist", "attitude", "beauty", 
   "compare", "judge", "magazine", "material", "meal", "method", "neighbor", "profit", "quality", 
   "space", "stair", "symbol", "thin", "community", "university", "celebrate", "decide", 
   "disappear", "else", "fair", "flow", "forward", "hill", "level", "lone", "puddle", "response", 
   "season", "solution", "waste", "whether", "great", "health", "recipe", "restaurant", 
   "special", "alive", "bone", "bother", "captain", "conclusion", "doubt", "explore", "glad", 
   "however", "mention", "social", "speech", "staff", "toward", "wood", "achieve", "advise", 
   "already", "basic", "bit", "consider", "destroy", "entertain", "extra", "goal", "lie", "meat", 
   "opinion", "real", "reflect", "regard", "serve", "vegetable", "war", "worth", "about", 
   "after", "again", "all", "also", "different", "each", "early", "every", "first", "important", 
   "large", "last", "late", "little", "live", "make", "many", "most", "much", "never", "next", 
   "only", "other", "own", "place", "right", "same", "some", "still", "such", "take", "than", 
   "them", "think", "through", "very", "way", "well", "while", "world", "write", "young"]

def b1Words : List String :=
  ["alcohol", "chemical", "evil", "experiment", "laboratory", "nervous", "alien", "planet", 
   "report", "shape", "command", "depend", "medical", "service", "benefit", "certain", "chance", 
   "effect", "essential", "focus", "function", "grass", "guard", "image", "immediate", "primary", 
   "proud", "remain", "rest", "separate", "site", "tail", "trouble", "advertise", "aware", 
   "battery", "black", "city", "clean", "country", "develop", "electric", "eventually", "fact", 
   "glass", "history", "nature", "people", "plastic", "problem", "street", "alone", 
   "professional", "appeal", "assume", "borrow", "client", "downtown", "dull", "embarrass", 
   "fare", "former", "found", "invest", "loan", "practical", "quarter", "salary", "scholarship", 
   "temporary", "treasure", "urge", "coach", "control", "description", "direct", "exam", 
   "example", "limit", "local", "magical", "mail", "novel", "outline", "poet", "print", "scene", 
   "sheet", "silly", "store", "suffer", "technology", "across", "breathe", "characteristic", 
   "consume", "excite", "extremely", "fear", "fortunate", "happen", "length", "mistake", 
   "observe", "opportunity", "prize", "race", "realize", "respond", "risk", "wonder", "yet", 
   "art", "contain", "delicious", "diet", "accounting", "injustice", "international", "lawyer", 
   "policy"]

def b2Words : List String :=
  ["apart", "attribute", "bilingual", "completely", "dash", "disgust", "fashionable", "foreign", 
   "gulf", "mirror", "natural", "nowadays", "participant", "ritual", "spoken", "sport", 
   "surprised", "tense", "totally", "vague", "allow", "announce", "beside", "challenge", "claim", 
   "condition", "contribute", "difference", "divide", "expert", "famous", "force", "harm", "lay", 
   "peace", "prince", "protect", "sense", "sudden", "therefore", "accept", "arrange", "attend", 
   "chase", "contrast", "encourage", "familiar", "grab", "hang", "huge", "necessary", "pattern", 
   "propose", "purpose", "release", "require", "satisfied", "single", "tear", "theory", 
   "advance", "athlete", "average", "behavior", "behind", "course", "lower", "match", "member", 
   "mental", "passenger", "personality", "poem", "pole", "remove", "safety", "shoot", "sound", 
   "swim", "web", "block", "bury", "cheer", "complex", "critic", "direction", "event", 
   "exercise", "friendship", "guide", "lack", "perform", "bright", "actual", "amaze", "charge", 
   "comfort", "contact", "customer", "deliver", "earn", "gate", "include", "manage", "mystery", 
   "occur", "opposite", "plate", "receive", "reward", "set", "steal", "thief"]

def c1Words : List String :=
  ["exchange", "appear", "base", "brain", "career", "clerk", "effort", "enter", "excellent", 
   "hero", "hurry", "inform", "later", "leave", "locate", "nurse", "operation", "pain", "refuse", 
   "though", "various"]

def c2Words : List String :=
  ["sophisticated", "unprecedented", "manifestation", "contemporary", "ambiguous"]

/-- The six tiers in the order in which `getCEFRLevelOffline` consults them
(lines 121-132). -/
def tiers : List (List String) := [a1Words, a2Words, b1Words, b2Words, c1Words, c2Words]

/-- Model of lines 121-146 of `getCEFRLevelOffline`: the tier lookup in
ascending order followed by the length heuristic, applied to the already
normalized (lower-cased, trimmed) text. -/
def classifyWord (text : String) : String :=
  if a1Words.contains text then "A1"
  else if a2Words.contains text then "A2"
  else if b1Words.contains text then "B1"
  else if b2Words.contains text then "B2"
  else if c1Words.contains text then "C1"
  else if c2Words.contains text then "C2"
  else if text.length ≤ 4 ∧ matchesLowerAlpha text.data then "A1"
  else if text.length ≤ 6 then "A2"
  else if text.length ≤ 8 then "B1"
  else if text.length ≤ 10 then "B2"
  else "C1"

/-- Evaluation of `getCEFRLevelOffline` on one token produced by
`analyzePhrase`.  In the source, `analyzePhrase` calls `getCEFRLevelOffline`
on each token; a token contains no space character (it is a maximal run of
non-whitespace), so that call always normalizes the token and takes the
single-word branch of lines 121-146.  The unfolding is justified by
`getCEFRLevelOffline_no_space` below. -/
def singleWordLevel (w : List Char) : String :=
  classifyWord (String.mk (jsTrim (jsLower w)))

/-- Model of lines 156-160 of `analyzePhrase`: lower-case, strip punctuation,
split on whitespace runs, discard empty tokens. -/
def phraseTokens (p : List Char) : List (List Char) :=
  wordsOf (stripPunct (jsLower p))

/-- Model of `analyzePhrase` (lines 154-180): classify every token and return
`levelNames[Math.max(...levels.map(l => levelValues[l] || 1))]`, or  A1 when
no token remains. -/
def analyzePhrase (phrase : List Char) : String :=
  if phraseTokens phrase = [] then "A1"
  else levelNames.getD
    (jsMaxNat (((phraseTokens phrase).map singleWordLevel).map levelValue)) ""

/-- Model of `getCEFRLevelOffline` (lines 14-147): normalize, dispatch phrases
containing a space to `analyzePhrase`, classify single words locally. -/
def getCEFRLevelOffline (s : String) : String :=
  if (jsTrim (jsLower s.data)).contains ' ' then analyzePhrase (jsTrim (jsLower s.data))
  else classifyWord (String.mk (jsTrim (jsLower s.data)))

/-- Model of lines 211-233 of `processTSVFileOffline`: annotate the columns of
one data line with at least 12 fields. -/
def annotateCols (cols : List (List Char)) : List (List Char) :=
  if jsTrim (cols.getD 3 []) = [] then cols
  else if jsTrim (cols.getD 11 []) = [] then
    cols.set 11 (getCEFRLevelOffline (String.mk (jsTrim (cols.getD 3 [])))).data
  else
    cols.set 11 (cols.getD 11 [] ++ ' ' ::
      (getCEFRLevelOffline (String.mk (jsTrim (cols.getD 3 [])))).data)

/-- Model of the per-line processing of `processTSVFileOffline`
(lines 203-236): pass through comment and blank lines, pass through lines
with fewer than 12 tab-separated fields, otherwise annotate column 11. -/
def processLine (line : List Char) : List Char :=
  if line.head? = some '#' ∨ jsTrim line = [] then line
  else if 12 ≤ (line.splitOn '\t').length then
    ['\t'].intercalate (annotateCols (line.splitOn '\t'))
  else line

/-- Model of `line.replace(/\r?\n$/, '')` (line 200): remove one trailing LF
together with an immediately preceding CR, if present. -/
def stripTerminator (l : List Char) : List Char :=
  if l.getLast? = some '\n' then
    if l.dropLast.getLast? = some '\r' then l.dropLast.dropLast else l.dropLast
  else l

/-- Model of the pure text transform of `processTSVFileOffline`
(lines 190-241): split the file on LF, process each line, rejoin with LF. -/
def processTSVFileOffline (data : List Char) : List Char :=
  ['\n'].intercalate ((data.splitOn '\n').map (fun raw => processLine (stripTerminator raw)))

end Offline

namespace Api

/-!
Model of `4000/add_cefr_levels.js`.

Lines 118-284 of this file (`getBasicCEFRLevel` and its `analyzePhrase`) are
a verbatim duplicate of lines 14-180 of `add_cefr_levels_offline.js`, apart
from the function names; in particular the six tier literals are repeated
verbatim, and are therefore modelled by their own copies below.
-/

def a1Words : List String :=
  ["agree", "arrive", "august", "boat", "breakfast", "camera", "catch", "duck", "enjoy", 
   "invite", "love", "month", "travel", "visit", "weather", "week", "wine", "kill", "laugh", 
   "loud", "noise", "smell", "cloud", "animal", "bus", "cat", "dog", "door", "friend", "hear", 
   "help", "horse", "hospital", "leg", "open", "pull", "rabbit", "school", "see", "chicken", 
   "eat", "food", "fruit", "water", "ask", "banana", "bread", "cake", "carrot", "chocolate", 
   "always", "seven", "start", "together", "wear", "year", "home", "family", "from", "green", 
   "red", "book", "clothes", "dinner", "end", "january", "december", "the", "a", "an", "and", 
   "or", "but", "in", "on", "at", "to", "for", "of", "with", "by", "i", "you", "he", "she", "it", 
   "we", "they", "my", "your", "his", "her", "its", "our", "their", "this", "that", "these", 
   "those", "here", "there", "where", "when", "what", "who", "how", "why", "yes", "no", "not", 
   "good", "bad", "big", "small", "new", "old", "hot", "cold", "long", "short", "like", "want", 
   "need", "have", "get", "go", "come", "look", "drink", "work", "time", "day"]

def a2Words : List String :=
  ["capital", "typical", "adventure", "approach", "carefully", "create", "project", "scare", 
   "secret", "shout", "terrible", "worse", "among", "chart", "describe", "ever", "fail", "grade", 
   "instead", "library", "photograph", "several", "solve", "suddenly", "suppose", "understand", 
   "view", "appropriate", "avoid", "behave", "calm", "concern", "content", "expect", 
   "frequently", "habit", "instruct", "issue", "none", "patient", "positive", "punish", 
   "represent", "shake", "spread", "stroll", "village", "active", "adult", "age", "balance", 
   "bike", "choose", "doctor", "during", "football", "fun", "game", "heart", "golf", "increase", 
   "life", "often", "plenty", "weight", "apartment", "article", "artist", "attitude", "beauty", 
   "compare", "judge", "magazine", "material", "meal", "method", "neighbor", "profit", "quality", 
   "space", "stair", "symbol", "thin", "community", "university", "celebrate", "decide", 
   "disappear", "else", "fair", "flow", "forward", "hill", "level", "lone", "puddle", "response", 
   "season", "solution", "waste", "whether", "great", "health", "recipe", "restaurant", 
   "special", "alive", "bone", "bother", "captain", "conclusion", "doubt", "explore", "glad", 
   "however", "mention", "social", "speech", "staff", "toward", "wood", "achieve", "advise", 
   "already", "basic", "bit", "consider", "destroy", "entertain", "extra", "goal", "lie", "meat", 
   "opinion", "real", "reflect", "regard", "serve", "vegetable", "war", "worth", "about", 
   "after", "again", "all", "also", "different", "each", "early", "every", "first", "important", 
   "large", "last", "late", "little", "live", "make", "many", "most", "much", "never", "next", 
   "only", "other", "own", "place", "right", "same", "some", "still", "such", "take", "than", 
   "them", "think", "through", "very", "way", "well", "while", "world", "write", "young"]

def b1Words : List String :=
  ["alcohol", "chemical", "evil", "experiment", "laboratory", "nervous", "alien", "planet", 
   "report", "shape", "command", "depend", "medical", "service", "benefit", "certain", "chance", 
   "effect", "essential", "focus", "function", "grass", "guard", "image", "immediate", "primary", 
   "proud", "remain", "rest", "separate", "site", "tail", "trouble", "advertise", "aware", 
   "battery", "black", "city", "clean", "country", "develop", "electric", "eventually", "fact", 
   "glass", "history", "nature", "people", "plastic", "problem", "street", "alone", 
   "professional", "appeal", "assume", "borrow", "client", "downtown", "dull", "embarrass", 
   "fare", "former", "found", "invest", "loan", "practical", "quarter", "salary", "scholarship", 
   "temporary", "treasure", "urge", "coach", "control", "description", "direct", "exam", 
   "example", "limit", "local", "magical", "mail", "novel", "outline", "poet", "print", "scene", 
   "sheet", "silly", "store", "suffer", "technology", "across", "breathe", "characteristic", 
   "consume", "excite", "extremely", "fear", "fortunate", "happen", "length", "mistake", 
   "observe", "opportunity", "prize", "race", "realize", "respond", "risk", "wonder", "yet", 
   "art", "contain", "delicious", "diet", "accounting", "injustice", "international", "lawyer", 
   "policy"]

def b2Words : List String :=
  ["apart", "attribute", "bilingual", "completely", "dash", "disgust", "fashionable", "foreign", 
   "gulf", "mirror", "natural", "nowadays", "participant", "ritual", "spoken", "sport", 
   "surprised", "tense", "totally", "vague", "allow", "announce", "beside", "challenge", "claim", 
   "condition", "contribute", "difference", "divide", "expert", "famous", "force", "harm", "lay", 
   "peace", "prince", "protect", "sense", "sudden", "therefore", "accept", "arrange", "attend", 
   "chase", "contrast", "encourage", "familiar", "grab", "hang", "huge", "necessary", "pattern", 
   "propose", "purpose", "release", "require", "satisfied", "single", "tear", "theory", 
   "advance", "athlete", "average", "behavior", "behind", "course", "lower", "match", "member", 
   "mental", "passenger", "personality", "poem", "pole", "remove", "safety", "shoot", "sound", 
   "swim", "web", "block", "bury", "cheer", "complex", "critic", "direction", "event", 
   "exercise", "friendship", "guide", "lack", "perform", "bright", "actual", "amaze", "charge", 
   "comfort", "contact", "customer", "deliver", "earn", "gate", "include", "manage", "mystery", 
   "occur", "opposite", "plate", "receive", "reward", "set", "steal", "thief"]

def c1Words : List String :=
  ["exchange", "appear", "base", "brain", "career", "clerk", "effort", "enter", "excellent", 
   "hero", "hurry", "inform", "later", "leave", "locate", "nurse", "operation", "pain", "refuse", 
   "though", "various"]

def c2Words : List String :=
  ["sophisticated", "unprecedented", "manifestation", "contemporary", "ambiguous"]

/-- The six tiers in the order in which `getBasicCEFRLevel` consults them
(lines 225-236). -/
def tiers : List (List String) := [a1Words, a2Words, b1Words, b2Words, c1Words, c2Words]

/-- Model of lines 225-250 of `getBasicCEFRLevel`: tier lookup then length
heuristic on the normalized text. -/
def classifyWord (text : String) : String :=
  if a1Words.contains text then "A1"
  else if a2Words.contains text then "A2"
  else if b1Words.contains text then "B1"
  else if b2Words.contains text then "B2"
  else if c1Words.contains text then "C1"
  else if c2Words.contains text then "C2"
  else if text.length ≤ 4 ∧ matchesLowerAlpha text.data then "A1"
  else if text.length ≤ 6 then "A2"
  else if text.length ≤ 8 then "B1"
  else if text.length ≤ 10 then "B2"
  else "C1"

/-- Evaluation of `getBasicCEFRLevel` on one space-free token produced by
`analyzePhrase` of `add_cefr_levels.js` (line 271); see
`Offline.singleWordLevel` for the justification of the unfolding. -/
def singleWordLevel (w : List Char) : String :=
  classifyWord (String.mk (jsTrim (jsLower w)))

/-- Model of lines 260-264 of `analyzePhrase` of `add_cefr_levels.js`. -/
def phraseTokens (p : List Char) : List (List Char) :=
  wordsOf (stripPunct (jsLower p))

/-- Model of `analyzePhrase` of `add_cefr_levels.js` (lines 258-284). -/
def analyzePhrase (phrase : List Char) : String :=
  if phraseTokens phrase = [] then "A1"
  else levelNames.getD
    (jsMaxNat (((phraseTokens phrase).map singleWordLevel).map levelValue)) ""

/-- Model of `getBasicCEFRLevel` (lines 118-251). -/
def getBasicCEFRLevel (s : String) : String :=
  if (jsTrim (jsLower s.data)).contains ' ' then analyzePhrase (jsTrim (jsLower s.data))
  else classifyWord (String.mk (jsTrim (jsLower s.data)))

/-- Outcome of one remote lookup attempt by `queryAPI` (lines 55-111).  The
network interaction itself cannot be embedded; what is modelled is every
outcome the calling code distinguishes: the 5-second timeout (line 103), a
request error (line 98), a response body `JSON.parse` cannot parse (line 92),
and a parsed response carrying an optional `word.level` string and an
optional top-level `level` string (lines 85-90). -/
inductive RemoteOutcome where
  | timeout : RemoteOutcome
  | netError : String → RemoteOutcome
  | unparsable : RemoteOutcome
  | parsed : Option String → Option String → RemoteOutcome

/-- JavaScript truthiness of an optional string field: present and
non-empty. -/
def truthyOpt : Option String → Bool
  | some s => !s.data.isEmpty
  | none => false

/-- Model of the promise produced by `queryAPI` (lines 55-111): an `Except`
value, `Except.error` for a rejected promise.  Lines 85-91: a truthy
`response.word.level` wins, else a truthy `response.level`, else the
resolution is the sentinel string UNKNOWN; hit levels are upper-cased. -/
def queryAPI : RemoteOutcome → Except String String
  | RemoteOutcome.timeout => Except.error "Timeout"
  | RemoteOutcome.netError e => Except.error e
  | RemoteOutcome.unparsable => Except.error "unparsable response"
  | RemoteOutcome.parsed w t =>
    if truthyOpt w then Except.ok (String.mk (jsUpper (w.getD "").data))
    else if truthyOpt t then Except.ok (String.mk (jsUpper (t.getD "").data))
    else Except.ok "UNKNOWN"

/-- Model of `getCEFRLevel` (lines 15-48), with the awaited `queryAPI` call
replaced by its `RemoteOutcome` oracle.  A phrase is sent to the remote
service once and falls back to the per-word local `analyzePhrase`; a single
word falls back to `getBasicCEFRLevel`.  A resolved value is used only when
truthy and distinct from UNKNOWN (lines 25 and 39). -/
def getCEFRLevel (s : String) (api : RemoteOutcome) : String :=
  if (jsTrim s.data).contains ' ' then
    match queryAPI api with
    | Except.ok r => if !r.data.isEmpty ∧ r ≠ "UNKNOWN" then r
        else analyzePhrase (jsTrim s.data)
    | Except.error _ => analyzePhrase (jsTrim s.data)
  else
    match queryAPI api with
    | Except.ok r => if !r.data.isEmpty ∧ r ≠ "UNKNOWN" then r
        else getBasicCEFRLevel (String.mk (jsTrim s.data))
    | Except.error _ => getBasicCEFRLevel (String.mk (jsTrim s.data))

/-- The failure modes of the remote lookup named by the specification:
timeout, network error, unparsable response, or a parsed response carrying
no recognizable level field. -/
def remoteFailed : RemoteOutcome → Bool
  | RemoteOutcome.timeout => true
  | RemoteOutcome.netError _ => true
  | RemoteOutcome.unparsable => true
  | RemoteOutcome.parsed w t => !truthyOpt w && !truthyOpt t

end Api

/-- Band mapping stated by the specification for words absent from every
tier: length at most 4 and all lowercase Latin letters gives A1, else at most
6 gives A2, at most 8 gives B1, at most 10 gives B2, otherwise C1. -/
def heuristicBand (t : String) : String :=
  if t.length ≤ 4 ∧ matchesLowerAlpha t.data then "A1"
  else if t.length ≤ 6 then "A2"
  else if t.length ≤ 8 then "B1"
  else if t.length ≤ 10 then "B2"
  else "C1"

/-! Basic character-level lemmas. -/

theorem Char.toNat_inj_iff (c d : Char) : c = d ↔ c.toNat = d.toNat := by
  constructor
  · intro h; rw [h]
  · intro h; exact Char.eq_of_val_eq (UInt32.toNat.inj h)

theorem toNat_ofNat_valid (n : Nat) (h : n < 55296) : (Char.ofNat n).toNat = n := by
  have hv : n.isValidChar := Or.inl h
  unfold Char.ofNat
  rw [dif_pos hv]
  rfl

theorem toNat_asciiLower (c : Char) :
    (asciiLower c).toNat =
      if 65 ≤ c.toNat ∧ c.toNat ≤ 90 then c.toNat + 32 else c.toNat := by
  unfold asciiLower
  split
  · next h => exact toNat_ofNat_valid _ (by omega)
  · rfl

theorem asciiLower_idem (c : Char) : asciiLower (asciiLower c) = asciiLower c := by
  rw [Char.toNat_inj_iff, toNat_asciiLower, toNat_asciiLower]
  split_ifs <;> omega

theorem isJsSpace_asciiLower (c : Char) : isJsSpace (asciiLower c) = isJsSpace c := by
  unfold isJsSpace
  rw [decide_eq_decide, toNat_asciiLower]
  unfold spaceCode
  split_ifs <;> omega

theorem asciiLower_eq_space (c : Char) (h : asciiLower c = ' ') : c = ' ' := by
  rw [Char.toNat_inj_iff, toNat_asciiLower] at h
  rw [Char.toNat_inj_iff]
  have h32 : (' ' : Char).toNat = 32 := rfl
  rw [h32] at h ⊢
  revert h
  split_ifs <;> (intro h; omega)

/-! Lemmas about `jsLower`. -/

theorem jsLower_idem (l : List Char) : jsLower (jsLower l) = jsLower l := by
  simp only [jsLower, List.map_map]
  exact List.map_congr_left (fun c _ => asciiLower_idem c)

theorem jsLower_fixed (l : List Char) (h : ∀ c ∈ l, asciiLower c = c) :
    jsLower l = l := by
  simp only [jsLower]
  calc l.map asciiLower = l.map id := List.map_congr_left h
  _ = l := List.map_id l

theorem mem_space_jsLower (l : List Char) : ' ' ∈ jsLower l ↔ ' ' ∈ l := by
  simp only [jsLower, List.mem_map]
  constructor
  · rintro ⟨c, hc, h⟩
    rw [asciiLower_eq_space c h] at hc
    exact hc
  · intro h
    exact ⟨' ', h, rfl⟩

/-! Lemmas about `jsTrim`. -/

theorem mem_of_mem_jsTrim (c : Char) (l : List Char) (h : c ∈ jsTrim l) : c ∈ l := by
  unfold jsTrim at h
  have h1 := (List.rdropWhile_prefix isJsSpace _).sublist.mem h
  exact (List.dropWhile_sublist isJsSpace).mem h1

theorem jsLower_jsTrim_jsLower (l : List Char) :
    jsLower (jsTrim (jsLower l)) = jsTrim (jsLower l) := by
  refine jsLower_fixed _ (fun c hc => ?_)
  have hc2 := mem_of_mem_jsTrim c _ hc
  simp only [jsLower, List.mem_map] at hc2
  obtain ⟨d, _, hd⟩ := hc2
  rw [← hd]
  exact asciiLower_idem d

theorem jsTrim_jsLower_comm (l : List Char) :
    jsTrim (jsLower l) = jsLower (jsTrim l) := by
  have hfun : (isJsSpace ∘ asciiLower) = isJsSpace := by
    funext c; simp only [Function.comp]; exact isJsSpace_asciiLower c
  unfold jsTrim jsLower List.rdropWhile
  rw [List.dropWhile_map, hfun, ← List.map_reverse, List.dropWhile_map, hfun,
    ← List.map_reverse]

theorem dropWhile_head_false (p : Char → Bool) :
    ∀ (m : List Char) (c : Char) (cs : List Char),
      m.dropWhile p = c :: cs → p c = false := by
  intro m
  induction m with
  | nil => intro c cs h; simp at h
  | cons a as ih =>
    intro c cs h
    rw [List.dropWhile_cons] at h
    by_cases ha : p a
    · rw [if_pos ha] at h; exact ih c cs h
    · rw [if_neg ha] at h
      cases h
      simpa using ha

theorem dropWhile_of_prefix_dropWhile (p : Char → Bool) (m u : List Char)
    (h : u <+: m.dropWhile p) : u.dropWhile p = u := by
  cases u with
  | nil => rfl
  | cons c cs =>
    obtain ⟨t, ht⟩ := h
    have hc : p c = false :=
      dropWhile_head_false p m c (cs ++ t) (by rw [← ht]; rfl)
    simp [List.dropWhile_cons, hc]

theorem jsTrim_idem (l : List Char) : jsTrim (jsTrim l) = jsTrim l := by
  unfold jsTrim
  rw [dropWhile_of_prefix_dropWhile isJsSpace l _ (List.rdropWhile_prefix _ _),
    List.rdropWhile_idempotent]

/-! Lemmas about `wordsOf`: splitting on whitespace ignores leading and
trailing whitespace, hence ignores `trim`. -/

theorem splitOnP_all_true (p : Char → Bool) (ws : List Char)
    (hws : ∀ c ∈ ws, p c = true) :
    ws.splitOnP p = List.replicate (ws.length + 1) [] := by
  induction ws with
  | nil => rfl
  | cons w ws2 ih =>
    rw [List.splitOnP_cons, if_pos (hws w (List.mem_cons_self w ws2)),
      ih (fun c hc => hws c (List.mem_cons_of_mem w hc))]
    rfl

theorem modifyHead_append_of_ne_nil (f : List Char → List Char)
    (a b : List (List Char)) (ha : a ≠ []) :
    (a ++ b).modifyHead f = a.modifyHead f ++ b := by
  cases a with
  | nil => exact absurd rfl ha
  | cons x xs => rfl

theorem splitOnP_append_all_true (p : Char → Bool) (l ws : List Char)
    (hws : ∀ c ∈ ws, p c = true) :
    (l ++ ws).splitOnP p = l.splitOnP p ++ List.replicate ws.length [] := by
  induction l with
  | nil =>
    rw [List.nil_append, List.splitOnP_nil, splitOnP_all_true p ws hws]
    rfl
  | cons c cs ih =>
    rw [List.cons_append, List.splitOnP_cons, List.splitOnP_cons]
    by_cases hc : p c
    · rw [if_pos hc, if_pos hc, ih, List.cons_append]
    · rw [if_neg hc, if_neg hc, ih,
        modifyHead_append_of_ne_nil _ _ _ (List.splitOnP_ne_nil p cs)]

theorem splitOnP_all_true_append (p : Char → Bool) (ws l : List Char)
    (hws : ∀ c ∈ ws, p c = true) :
    (ws ++ l).splitOnP p = List.replicate ws.length [] ++ l.splitOnP p := by
  induction ws with
  | nil => rfl
  | cons w ws2 ih =>
    rw [List.cons_append, List.splitOnP_cons, if_pos (hws w (List.mem_cons_self w ws2)),
      ih (fun c hc => hws c (List.mem_cons_of_mem w hc))]
    rfl

theorem filter_replicate_nil (n : Nat) :
    (List.replicate n ([] : List Char)).filter (fun w => !w.isEmpty) = [] := by
  induction n with
  | zero => rfl
  | succ n ih => rw [List.replicate_succ, List.filter_cons]; simp [ih]

theorem wordsOf_append_left (ws l : List Char)
    (hws : ∀ c ∈ ws, isJsSpace c = true) :
    wordsOf (ws ++ l) = wordsOf l := by
  unfold wordsOf
  rw [splitOnP_all_true_append isJsSpace ws l hws, List.filter_append,
    filter_replicate_nil, List.nil_append]

theorem wordsOf_append_right (l ws : List Char)
    (hws : ∀ c ∈ ws, isJsSpace c = true) :
    wordsOf (l ++ ws) = wordsOf l := by
  unfold wordsOf
  rw [splitOnP_append_all_true isJsSpace l ws hws, List.filter_append,
    filter_replicate_nil, List.append_nil]

theorem mem_splitOnP_false (p : Char → Bool) :
    ∀ (l w : List Char), w ∈ l.splitOnP p → ∀ a ∈ w, p a = false := by
  intro l
  induction l with
  | nil =>
    intro w hw a ha
    rw [List.splitOnP_nil] at hw
    rcases List.mem_singleton.mp hw with h
    subst h
    exact absurd ha (List.not_mem_nil a)
  | cons c cs ih =>
    intro w hw a ha
    rw [List.splitOnP_cons] at hw
    by_cases hc : p c
    · rw [if_pos hc] at hw
      rcases List.mem_cons.mp hw with h | h
      · subst h; exact absurd ha (List.not_mem_nil a)
      · exact ih w h a ha
    · rw [if_neg hc] at hw
      cases hsp : cs.splitOnP p with
      | nil => exact absurd hsp (List.splitOnP_ne_nil p cs)
      | cons h t =>
        rw [hsp] at hw
        rcases List.mem_cons.mp hw with hm | hm
        · subst hm
          rcases List.mem_cons.mp ha with hac | hah
          · subst hac; simpa using hc
          · exact ih h (by rw [hsp]; exact List.mem_cons_self h t) a hah
        · exact ih w (by rw [hsp]; exact List.mem_cons_of_mem h hm) a ha

theorem mem_wordsOf_no_space (l w : List Char) (hw : w ∈ wordsOf l) :
    ' ' ∉ w := by
  intro hsp
  have hmem : w ∈ l.splitOnP isJsSpace := List.mem_of_mem_filter hw
  have := mem_splitOnP_false isJsSpace l w hmem ' ' hsp
  simp [isJsSpace, spaceCode] at this

theorem rdropWhile_append_rtakeWhile (p : Char → Bool) (l : List Char) :
    l.rdropWhile p ++ l.rtakeWhile p = l := by
  unfold List.rdropWhile List.rtakeWhile
  rw [← List.reverse_append, List.takeWhile_append_dropWhile, List.reverse_reverse]

theorem stripPunct_append (x y : List Char) :
    stripPunct (x ++ y) = stripPunct x ++ stripPunct y := by
  unfold stripPunct
  exact List.filter_append x y

theorem stripPunct_of_all_space (x : List Char)
    (hx : ∀ c ∈ x, isJsSpace c = true) : stripPunct x = x := by
  unfold stripPunct
  refine List.filter_eq_self.mpr (fun c hc => ?_)
  rw [hx c hc, Bool.or_true]

theorem wordsOf_stripPunct_jsTrim (u : List Char) :
    wordsOf (stripPunct (jsTrim u)) = wordsOf (stripPunct u) := by
  have hsplit : u = u.takeWhile isJsSpace ++
      (jsTrim u ++ (u.dropWhile isJsSpace).rtakeWhile isJsSpace) := by
    unfold jsTrim
    rw [rdropWhile_append_rtakeWhile, List.takeWhile_append_dropWhile]
  have ha : ∀ c ∈ u.takeWhile isJsSpace, isJsSpace c = true := by
    intro c hc; exact List.mem_takeWhile_imp hc
  have hb : ∀ c ∈ (u.dropWhile isJsSpace).rtakeWhile isJsSpace, isJsSpace c = true := by
    intro c hc; exact List.mem_rtakeWhile_imp hc
  conv_rhs => rw [hsplit]
  rw [stripPunct_append, stripPunct_append, stripPunct_of_all_space _ ha,
    stripPunct_of_all_space _ hb, wordsOf_append_left _ _ ha,
    wordsOf_append_right _ _ hb]

theorem foldl_max_mem (t : List Nat) (h : Nat) :
    t.foldl max h = h ∨ t.foldl max h ∈ t := by
  induction t generalizing h with
  | nil => left; rfl
  | cons y t ih =>
    rcases ih (max h y) with hc | hc
    · rcases max_choice h y with hm | hm
      · left; rw [List.foldl_cons, hc, hm]
      · right; rw [List.foldl_cons, hc, hm]; exact List.mem_cons_self y t
    · right; exact List.mem_cons_of_mem y (by rw [List.foldl_cons]; exact hc)

theorem le_foldl_max (t : List Nat) (h : Nat) :
    h ≤ t.foldl max h ∧ ∀ x ∈ t, x ≤ t.foldl max h := by
  induction t generalizing h with
  | nil => exact ⟨Nat.le_refl h, fun x hx => absurd hx (List.not_mem_nil x)⟩
  | cons y t ih =>
    obtain ⟨h1, h2⟩ := ih (max h y)
    refine ⟨le_trans (Nat.le_max_left h y) (by simpa using h1), ?_⟩
    intro x hx
    rcases List.mem_cons.mp hx with hx | hx
    · subst hx
      exact le_trans (Nat.le_max_right h x) (by simpa using h1)
    · simpa using h2 x hx

theorem jsMaxNat_mem (l : List Nat) (hl : l ≠ []) : jsMaxNat l ∈ l := by
  cases l with
  | nil => exact absurd rfl hl
  | cons h t =>
    rcases foldl_max_mem t h with hc | hc
    · rw [jsMaxNat, hc]; exact List.mem_cons_self h t
    · exact List.mem_cons_of_mem h hc

theorem le_jsMaxNat (l : List Nat) (x : Nat) (hx : x ∈ l) : x ≤ jsMaxNat l := by
  cases l with
  | nil => exact absurd hx (List.not_mem_nil x)
  | cons h t =>
    obtain ⟨h1, h2⟩ := le_foldl_max t h
    rcases List.mem_cons.mp hx with hc | hc
    · subst hc; exact h1
    · exact h2 x hc

theorem levelNames_getD_levelValue (l : String) (hl : l ∈ cefrLevels) :
    levelNames.getD (levelValue l) "" = l := by
  fin_cases hl <;> rfl

/-! Helper lemmas about the classifiers. -/

theorem Offline.classifyWord_mem_cefrLevels (t : String) :
    Offline.classifyWord t ∈ cefrLevels := by
  unfold Offline.classifyWord
  split_ifs <;> simp [cefrLevels]

theorem Offline.singleWordLevel_mem_cefrLevels (w : List Char) :
    Offline.singleWordLevel w ∈ cefrLevels :=
  Offline.classifyWord_mem_cefrLevels _

theorem Offline.analyzePhrase_max (p : List Char)
    (hne : Offline.phraseTokens p ≠ []) :
    Offline.analyzePhrase p ∈ (Offline.phraseTokens p).map Offline.singleWordLevel ∧
    ∀ x ∈ (Offline.phraseTokens p).map Offline.singleWordLevel,
      levelValue x ≤ levelValue (Offline.analyzePhrase p) := by
  have hres : Offline.analyzePhrase p = levelNames.getD
      (jsMaxNat (((Offline.phraseTokens p).map Offline.singleWordLevel).map levelValue)) "" := by
    unfold Offline.analyzePhrase
    rw [if_neg hne]
  have hvne : ((Offline.phraseTokens p).map Offline.singleWordLevel).map levelValue ≠ [] := by
    simpa using hne
  have hMmem := jsMaxNat_mem _ hvne
  rw [List.mem_map] at hMmem
  obtain ⟨lvl, hlvl, hM⟩ := hMmem
  have hlc : lvl ∈ cefrLevels := by
    rw [List.mem_map] at hlvl
    obtain ⟨w, _, hw⟩ := hlvl
    rw [← hw]
    exact Offline.singleWordLevel_mem_cefrLevels w
  have hr : Offline.analyzePhrase p = lvl := by
    rw [hres, ← hM]
    exact levelNames_getD_levelValue lvl hlc
  constructor
  · rw [hr]; exact hlvl
  · intro x hx
    rw [hr, hM]
    exact le_jsMaxNat _ _ (List.mem_map_of_mem levelValue hx)

theorem Offline.analyzePhrase_mem_cefrLevels (p : List Char) :
    Offline.analyzePhrase p ∈ cefrLevels := by
  by_cases hne : Offline.phraseTokens p = []
  · unfold Offline.analyzePhrase
    rw [if_pos hne]
    simp [cefrLevels]
  · have h := (Offline.analyzePhrase_max p hne).1
    rw [List.mem_map] at h
    obtain ⟨w, _, hw⟩ := h
    rw [← hw]
    exact Offline.singleWordLevel_mem_cefrLevels w

theorem Offline.getCEFRLevelOffline_mem_cefrLevels (s : String) :
    Offline.getCEFRLevelOffline s ∈ cefrLevels := by
  unfold Offline.getCEFRLevelOffline
  split_ifs
  · exact Offline.analyzePhrase_mem_cefrLevels _
  · exact Offline.classifyWord_mem_cefrLevels _

theorem contains_space_iff (l : List Char) : l.contains ' ' = true ↔ ' ' ∈ l := by
  simp [List.contains]

theorem Offline.getCEFRLevelOffline_no_space (w : List Char) (h : ' ' ∉ w) :
    Offline.getCEFRLevelOffline (String.mk w) = Offline.singleWordLevel w := by
  have hns : (jsTrim (jsLower w)).contains ' ' = false := by
    rw [Bool.eq_false_iff]
    intro hc
    have hm := (contains_space_iff _).mp hc
    have := (mem_space_jsLower w).mp (mem_of_mem_jsTrim _ _ hm)
    exact h this
  unfold Offline.getCEFRLevelOffline
  rw [show (String.mk w).data = w from rfl, hns]
  simp [Offline.singleWordLevel]

/-- The two files declare their tier literals verbatim identically; the local
classification chains are therefore definitionally equal. -/
theorem basic_eq_offline (s : String) :
    Api.getBasicCEFRLevel s = Offline.getCEFRLevelOffline s := rfl

/-! Further helper lemmas. -/

theorem contains_eq_true_of_mem (l : List String) (a : String) (h : a ∈ l) :
    l.contains a = true :=
  List.elem_iff.mpr h

theorem contains_eq_false_of_not_mem (l : List String) (a : String) (h : a ∉ l) :
    l.contains a = false := by
  rw [Bool.eq_false_iff]
  intro hc
  exact h (List.elem_iff.mp hc)

set_option maxRecDepth 16384

theorem offline_tiers_no_space : ∀ x ∈ Offline.tiers, ∀ w ∈ x, ' ' ∉ w.data := by
  decide

theorem cefrLevels_no_tab : ∀ l ∈ cefrLevels, '\t' ∉ l.data := by decide

theorem contains_space_jsLower (l : List Char) :
    (jsLower l).contains ' ' = l.contains ' ' := by
  apply Bool.eq_iff_iff.mpr
  rw [contains_space_iff, contains_space_iff]
  exact mem_space_jsLower l

theorem Offline.phraseTokens_jsTrim_jsLower (l : List Char) :
    Offline.phraseTokens (jsTrim (jsLower l)) = Offline.phraseTokens l := by
  unfold Offline.phraseTokens
  rw [jsLower_jsTrim_jsLower, wordsOf_stripPunct_jsTrim]

theorem Offline.phraseTokens_jsLower (p : List Char) :
    Offline.phraseTokens (jsLower p) = Offline.phraseTokens p := by
  unfold Offline.phraseTokens
  rw [jsLower_idem]

theorem Offline.analyzePhrase_jsLower (p : List Char) :
    Offline.analyzePhrase (jsLower p) = Offline.analyzePhrase p := by
  unfold Offline.analyzePhrase
  rw [Offline.phraseTokens_jsLower]

theorem api_analyzePhrase_eq (p : List Char) :
    Api.analyzePhrase p = Offline.analyzePhrase p := rfl

theorem api_classifyWord_eq (t : String) :
    Api.classifyWord t = Offline.classifyWord t := rfl

/-! Lemmas for the heuristic-fallback claim. -/

theorem Offline.classifyWord_of_absent (t : String)
    (h : ∀ tier ∈ Offline.tiers, t ∉ tier) :
    Offline.classifyWord t = heuristicBand t := by
  have h1 := contains_eq_false_of_not_mem _ t (h Offline.a1Words (by simp [Offline.tiers]))
  have h2 := contains_eq_false_of_not_mem _ t (h Offline.a2Words (by simp [Offline.tiers]))
  have h3 := contains_eq_false_of_not_mem _ t (h Offline.b1Words (by simp [Offline.tiers]))
  have h4 := contains_eq_false_of_not_mem _ t (h Offline.b2Words (by simp [Offline.tiers]))
  have h5 := contains_eq_false_of_not_mem _ t (h Offline.c1Words (by simp [Offline.tiers]))
  have h6 := contains_eq_false_of_not_mem _ t (h Offline.c2Words (by simp [Offline.tiers]))
  unfold Offline.classifyWord heuristicBand
  rw [h1, h2, h3, h4, h5, h6]
  simp

theorem heuristicBand_mono (t u : String) (ht : matchesLowerAlpha t.data = true)
    (hu : matchesLowerAlpha u.data = true) (hl : t.length ≤ u.length) :
    levelValue (heuristicBand t) ≤ levelValue (heuristicBand u) := by
  unfold heuristicBand
  rw [ht, hu]
  simp only [and_true]
  split_ifs <;> first | decide | omega

/-! The claims. -/

/-- Claim C1, counterexample to the claim as stated: the input string
consisting of a space, a dot and a space contains a space and yields zero
tokens, yet the classifier returns A2 (the input is trimmed to a single dot
before the space test, so the phrase path and its A1 default are never
reached). -/
theorem claim_C1_counterexample :
    (" . ".data.contains ' ' = true) ∧ Offline.phraseTokens " . ".data = [] ∧
    Offline.getCEFRLevelOffline " . " ≠ "A1" := by decide

/-- Claim C1 (amended: the space test is applied to the lower-cased, trimmed
input, which is what the code tests): for every input whose lower-cased,
trimmed form contains a space, if the tokens obtained by lower-casing the
input, stripping punctuation and splitting on whitespace are nonempty then
`getCEFRLevelOffline` returns the maximum Level (in the order A1 < A2 < B1 <
B2 < C1 < C2, as measured by `levelValue`) among the tokens classified
independently through the single-word path, and if no token remains it
returns A1. -/
theorem claim_C1 : ∀ s : String, (jsTrim (jsLower s.data)).contains ' ' = true →
    (Offline.phraseTokens s.data ≠ [] →
      Offline.getCEFRLevelOffline s ∈
        (Offline.phraseTokens s.data).map Offline.singleWordLevel ∧
      ∀ x ∈ (Offline.phraseTokens s.data).map Offline.singleWordLevel,
        levelValue x ≤ levelValue (Offline.getCEFRLevelOffline s)) ∧
    (Offline.phraseTokens s.data = [] → Offline.getCEFRLevelOffline s = "A1") := by
  intro s hsp
  have hres : Offline.getCEFRLevelOffline s =
      Offline.analyzePhrase (jsTrim (jsLower s.data)) := by
    unfold Offline.getCEFRLevelOffline
    rw [hsp]
    simp
  constructor
  · intro hne
    have hne2 : Offline.phraseTokens (jsTrim (jsLower s.data)) ≠ [] := by
      rw [Offline.phraseTokens_jsTrim_jsLower]
      exact hne
    have h := Offline.analyzePhrase_max _ hne2
    rw [Offline.phraseTokens_jsTrim_jsLower] at h
    rw [hres]
    exact h
  · intro he
    rw [hres]
    unfold Offline.analyzePhrase
    rw [Offline.phraseTokens_jsTrim_jsLower, if_pos he]

/-- Witness for claim C1 at the phrase of the specification example. -/
theorem claim_C1_witness :
    Offline.getCEFRLevelOffline "cat beautiful" ∈
      (Offline.phraseTokens "cat beautiful".data).map Offline.singleWordLevel :=
  ((claim_C1 "cat beautiful" (by decide)).1 (by decide)).1

/-- Claim C2: if the lower-cased, trimmed input is a member of the tier at
index `i` (tiers in ascending order A1, A2, B1, B2, C1, C2) and of no tier
with a smaller index, then `getCEFRLevelOffline` returns the Level of tier
`i` — so a word in exactly one tier gets that tier's Level regardless of case
and surrounding whitespace, and for a word in several tiers the lowest wins
because the scan ascends and stops at the first match. -/
theorem claim_C2 : ∀ (w : String) (i : Nat), i < 6 →
    String.mk (jsTrim (jsLower w.data)) ∈ Offline.tiers.getD i [] →
    (∀ j, j < i → String.mk (jsTrim (jsLower w.data)) ∉ Offline.tiers.getD j []) →
    Offline.getCEFRLevelOffline w = cefrLevels.getD i "" := by
  intro w i hi hmem hnot
  have hns : ∀ x ∈ Offline.tiers, String.mk (jsTrim (jsLower w.data)) ∈ x →
      (jsTrim (jsLower w.data)).contains ' ' = false := by
    intro x hx hmx
    rw [Bool.eq_false_iff]
    intro hc
    exact offline_tiers_no_space x hx _ hmx ((contains_space_iff _).mp hc)
  interval_cases i
  · have hm : String.mk (jsTrim (jsLower w.data)) ∈ Offline.a1Words := by
      simpa [Offline.tiers] using hmem
    unfold Offline.getCEFRLevelOffline
    rw [hns Offline.a1Words (by simp [Offline.tiers]) hm]
    unfold Offline.classifyWord
    rw [contains_eq_true_of_mem _ _ hm]
    simp [cefrLevels]
  · have hm : String.mk (jsTrim (jsLower w.data)) ∈ Offline.a2Words := by
      simpa [Offline.tiers] using hmem
    have hn0 : String.mk (jsTrim (jsLower w.data)) ∉ Offline.a1Words := by
      simpa [Offline.tiers] using hnot 0 (by omega)
    unfold Offline.getCEFRLevelOffline
    rw [hns Offline.a2Words (by simp [Offline.tiers]) hm]
    unfold Offline.classifyWord
    rw [contains_eq_true_of_mem _ _ hm, contains_eq_false_of_not_mem _ _ hn0]
    simp [cefrLevels]
  · have hm : String.mk (jsTrim (jsLower w.data)) ∈ Offline.b1Words := by
      simpa [Offline.tiers] using hmem
    have hn0 : String.mk (jsTrim (jsLower w.data)) ∉ Offline.a1Words := by
      simpa [Offline.tiers] using hnot 0 (by omega)
    have hn1 : String.mk (jsTrim (jsLower w.data)) ∉ Offline.a2Words := by
      simpa [Offline.tiers] using hnot 1 (by omega)
    unfold Offline.getCEFRLevelOffline
    rw [hns Offline.b1Words (by simp [Offline.tiers]) hm]
    unfold Offline.classifyWord
    rw [contains_eq_true_of_mem _ _ hm, contains_eq_false_of_not_mem _ _ hn0,
      contains_eq_false_of_not_mem _ _ hn1]
    simp [cefrLevels]
  · have hm : String.mk (jsTrim (jsLower w.data)) ∈ Offline.b2Words := by
      simpa [Offline.tiers] using hmem
    have hn0 : String.mk (jsTrim (jsLower w.data)) ∉ Offline.a1Words := by
      simpa [Offline.tiers] using hnot 0 (by omega)
    have hn1 : String.mk (jsTrim (jsLower w.data)) ∉ Offline.a2Words := by
      simpa [Offline.tiers] using hnot 1 (by omega)
    have hn2 : String.mk (jsTrim (jsLower w.data)) ∉ Offline.b1Words := by
      simpa [Offline.tiers] using hnot 2 (by omega)
    unfold Offline.getCEFRLevelOffline
    rw [hns Offline.b2Words (by simp [Offline.tiers]) hm]
    unfold Offline.classifyWord
    rw [contains_eq_true_of_mem _ _ hm, contains_eq_false_of_not_mem _ _ hn0,
      contains_eq_false_of_not_mem _ _ hn1, contains_eq_false_of_not_mem _ _ hn2]
    simp [cefrLevels]
  · have hm : String.mk (jsTrim (jsLower w.data)) ∈ Offline.c1Words := by
      simpa [Offline.tiers] using hmem
    have hn0 : String.mk (jsTrim (jsLower w.data)) ∉ Offline.a1Words := by
      simpa [Offline.tiers] using hnot 0 (by omega)
    have hn1 : String.mk (jsTrim (jsLower w.data)) ∉ Offline.a2Words := by
      simpa [Offline.tiers] using hnot 1 (by omega)
    have hn2 : String.mk (jsTrim (jsLower w.data)) ∉ Offline.b1Words := by
      simpa [Offline.tiers] using hnot 2 (by omega)
    have hn3 : String.mk (jsTrim (jsLower w.data)) ∉ Offline.b2Words := by
      simpa [Offline.tiers] using hnot 3 (by omega)
    unfold Offline.getCEFRLevelOffline
    rw [hns Offline.c1Words (by simp [Offline.tiers]) hm]
    unfold Offline.classifyWord
    rw [contains_eq_true_of_mem _ _ hm, contains_eq_false_of_not_mem _ _ hn0,
      contains_eq_false_of_not_mem _ _ hn1, contains_eq_false_of_not_mem _ _ hn2,
      contains_eq_false_of_not_mem _ _ hn3]
    simp [cefrLevels]
  · have hm : String.mk (jsTrim (jsLower w.data)) ∈ Offline.c2Words := by
      simpa [Offline.tiers] using hmem
    have hn0 : String.mk (jsTrim (jsLower w.data)) ∉ Offline.a1Words := by
      simpa [Offline.tiers] using hnot 0 (by omega)
    have hn1 : String.mk (jsTrim (jsLower w.data)) ∉ Offline.a2Words := by
      simpa [Offline.tiers] using hnot 1 (by omega)
    have hn2 : String.mk (jsTrim (jsLower w.data)) ∉ Offline.b1Words := by
      simpa [Offline.tiers] using hnot 2 (by omega)
    have hn3 : String.mk (jsTrim (jsLower w.data)) ∉ Offline.b2Words := by
      simpa [Offline.tiers] using hnot 3 (by omega)
    have hn4 : String.mk (jsTrim (jsLower w.data)) ∉ Offline.c1Words := by
      simpa [Offline.tiers] using hnot 4 (by omega)
    unfold Offline.getCEFRLevelOffline
    rw [hns Offline.c2Words (by simp [Offline.tiers]) hm]
    unfold Offline.classifyWord
    rw [contains_eq_true_of_mem _ _ hm, contains_eq_false_of_not_mem _ _ hn0,
      contains_eq_false_of_not_mem _ _ hn1, contains_eq_false_of_not_mem _ _ hn2,
      contains_eq_false_of_not_mem _ _ hn3, contains_eq_false_of_not_mem _ _ hn4]
    simp [cefrLevels]

/-- Witness for claim C2: the word alcohol is in the B1 tier only, and the
classifier maps the cased, padded input to B1. -/
theorem claim_C2_witness : Offline.getCEFRLevelOffline " Alcohol " = "B1" :=
  claim_C2 " Alcohol " 2 (by omega) (by decide) (by decide)

/-- Claim C3: on words absent from every tier the classifier follows exactly
the five length bands of the heuristic (at most 4 and all lowercase Latin
letters: A1; at most 6: A2; at most 8: B1; at most 10: B2; else C1), never
returns C2, and among all-lowercase unknown words a shorter word never gets a
higher Level than a longer one. -/
theorem claim_C3 : ∀ t u : String,
    (∀ tier ∈ Offline.tiers, t ∉ tier) → (∀ tier ∈ Offline.tiers, u ∉ tier) →
    (Offline.classifyWord t = heuristicBand t ∧ Offline.classifyWord t ≠ "C2") ∧
    (matchesLowerAlpha t.data = true → matchesLowerAlpha u.data = true →
      t.length ≤ u.length →
      levelValue (Offline.classifyWord t) ≤ levelValue (Offline.classifyWord u)) := by
  intro t u ht hu
  have hbt := Offline.classifyWord_of_absent t ht
  have hbu := Offline.classifyWord_of_absent u hu
  refine ⟨⟨hbt, ?_⟩, ?_⟩
  · rw [hbt]
    unfold heuristicBand
    split_ifs <;> decide
  · intro h1 h2 h3
    rw [hbt, hbu]
    exact heuristicBand_mono t u h1 h2 h3

/-- Witness for claim C3: two unknown all-lowercase words of lengths 4 and
12. -/
theorem claim_C3_witness :
    levelValue (Offline.classifyWord "zzzz") ≤
      levelValue (Offline.classifyWord "zzzzzzzzzzzz") :=
  (claim_C3 "zzzz" "zzzzzzzzzzzz" (by decide) (by decide)).2 (by decide) (by decide)
    (by decide)

/-- Claim C6: blank lines, whitespace-only lines, lines starting with the
comment marker, and lines with fewer than 12 tab-separated fields pass
through the annotator unchanged. -/
theorem claim_C6 : ∀ line : List Char,
    jsTrim line = [] ∨ line.head? = some '#' ∨ (line.splitOn '\t').length < 12 →
    Offline.processLine line = line := by
  intro line h
  unfold Offline.processLine
  by_cases hp : line.head? = some '#' ∨ jsTrim line = []
  · rw [if_pos hp]
  · rw [if_neg hp]
    have hlen : ¬ 12 ≤ (line.splitOn '\t').length := by
      rcases h with h | h | h
      · exact absurd (Or.inr h) hp
      · exact absurd (Or.inl h) hp
      · omega
    rw [if_neg hlen]

/-- Witness for claim C6: a two-field line passes through unchanged. -/
theorem claim_C6_witness : Offline.processLine ("a\tb".data) = "a\tb".data :=
  claim_C6 ("a\tb".data) (Or.inr (Or.inr (by decide)))

/-- Claim C7 (code bug evidence): the annotator does not strip the carriage
return of a CRLF terminator.  `line.replace(/\r?\n$/, '')` runs on the pieces
of `data.split('\n')`, which never contain a line feed, so the replacement
never fires: a line read from a CRLF file keeps its trailing CR, and the CR
survives into the output. -/
theorem claim_C7 :
    Offline.stripTerminator ("#x\r".data) = "#x\r".data ∧
    Offline.stripTerminator ("#x\r".data) ≠ "#x".data ∧
    Offline.processTSVFileOffline ("#x\r\n#y".data) = "#x\r\n#y".data := by
  decide

/-- Claim C9: the classification logic duplicated across the two entry points
is extensionally equal — identical tier sets, and the phrase aggregation and
the full local classifier agree on every input. -/
theorem claim_C9 :
    Api.tiers = Offline.tiers ∧
    (∀ p : List Char, Api.analyzePhrase p = Offline.analyzePhrase p) ∧
    (∀ s : String, Api.getBasicCEFRLevel s = Offline.getCEFRLevelOffline s) :=
  ⟨rfl, fun p => api_analyzePhrase_eq p, fun s => basic_eq_offline s⟩

/-- Claim C10: every input that lower-cases and trims to the empty string is
classified A2 by both single-word classifiers: the empty string contains no
space, matches no tier, fails the nonempty lowercase-letters test of the A1
branch, and falls into the length-at-most-6 branch. -/
theorem claim_C10 : ∀ s : String, jsTrim (jsLower s.data) = [] →
    Offline.getCEFRLevelOffline s = "A2" ∧ Api.getBasicCEFRLevel s = "A2" := by
  intro s h
  have h1 : Offline.getCEFRLevelOffline s = "A2" := by
    unfold Offline.getCEFRLevelOffline
    rw [h]
    decide
  exact ⟨h1, by rw [basic_eq_offline]; exact h1⟩

/-- Witness for claim C10 at a whitespace-only input. -/
theorem claim_C10_witness :
    Offline.getCEFRLevelOffline "   " = "A2" ∧ Api.getBasicCEFRLevel "   " = "A2" :=
  claim_C10 "   " (by decide)

/-! Lemmas for the annotator claims. -/

theorem mem_splitOn_not (c : Char) (l w : List Char) (hw : w ∈ l.splitOn c) :
    c ∉ w := by
  intro hc
  have hm : w ∈ l.splitOnP (· == c) := hw
  have := mem_splitOnP_false (· == c) l w hm c hc
  simp at this

theorem splitOn_set_tab_free (line v : List Char) (hv : '\t' ∉ v) :
    ∀ w ∈ (line.splitOn '\t').set 11 v, '\t' ∉ w := by
  intro w hw
  rcases List.mem_or_eq_of_mem_set hw with hm | hm
  · exact mem_splitOn_not '\t' line w hm
  · rw [hm]
    exact hv

theorem level_data_tab_free (s : String) :
    '\t' ∉ (Offline.getCEFRLevelOffline s).data :=
  cefrLevels_no_tab _ (Offline.getCEFRLevelOffline_mem_cefrLevels s)

theorem set_ne_nil_of_twelve (cols : List (List Char)) (v : List Char)
    (hlen : 12 ≤ cols.length) : cols.set 11 v ≠ [] := by
  intro hc
  have hl := List.length_set cols 11 v
  rw [hc] at hl
  simp at hl
  omega

/-- Claim C5, counterexample to the claim as stated: on a data line whose
field 11 is a single space — a non-empty string — the annotator replaces the
field with the level instead of appending to the old contents, because the
code tests the trimmed contents for emptiness. -/
theorem claim_C5_counterexample :
    Offline.processLine ("a\tb\tc\tcat\te\tf\tg\th\ti\tj\tk\t ".data) =
      "a\tb\tc\tcat\te\tf\tg\th\ti\tj\tk\tA1".data ∧
    Offline.processLine ("a\tb\tc\tcat\te\tf\tg\th\ti\tj\tk\t ".data) ≠
      ['\t'].intercalate ((("a\tb\tc\tcat\te\tf\tg\th\ti\tj\tk\t ".data).splitOn '\t').set 11
        (" ".data ++ ' ' :: "A1".data)) := by
  decide

/-- Claim C5 (amended: field 11 is appended to when its trimmed contents are
non-empty, and replaced when it is empty or whitespace-only, because the code
tests `columns[11].trim()`): on a data line with at least 12 tab-separated
fields, if the trimmed field 3 is empty the line — in particular field 11 —
is left untouched; and if the trimmed field 3 is non-empty, the output has
the same field count, every field except index 11 verbatim unchanged, and
field 11 equal to its old contents, a space and the computed Level when the
old contents trim non-empty, else exactly the computed Level. -/
theorem claim_C5 : ∀ line : List Char,
    line.head? ≠ some '#' → jsTrim line ≠ [] →
    12 ≤ (line.splitOn '\t').length →
    (jsTrim ((line.splitOn '\t').getD 3 []) = [] →
      Offline.processLine line = line) ∧
    (jsTrim ((line.splitOn '\t').getD 3 []) ≠ [] →
      ((Offline.processLine line).splitOn '\t').length = (line.splitOn '\t').length ∧
      (∀ j, j < (line.splitOn '\t').length → j ≠ 11 →
        ((Offline.processLine line).splitOn '\t').getD j [] =
          (line.splitOn '\t').getD j []) ∧
      ((Offline.processLine line).splitOn '\t').getD 11 [] =
        (if jsTrim ((line.splitOn '\t').getD 11 []) ≠ [] then
          (line.splitOn '\t').getD 11 [] ++ ' ' ::
            (Offline.getCEFRLevelOffline
              (String.mk (jsTrim ((line.splitOn '\t').getD 3 [])))).data
        else (Offline.getCEFRLevelOffline
              (String.mk (jsTrim ((line.splitOn '\t').getD 3 [])))).data)) := by
  intro line h1 h2 hlen
  have hpass : ¬(line.head? = some '#' ∨ jsTrim line = []) := by
    rintro (h | h)
    · exact h1 h
    · exact h2 h
  have h11lt : 11 < (line.splitOn '\t').length := by omega
  constructor
  · intro h3e
    unfold Offline.processLine
    rw [if_neg hpass, if_pos hlen]
    unfold Offline.annotateCols
    rw [if_pos h3e]
    exact List.intercalate_splitOn line '\t'
  intro h3
  have hold_tab_free : '\t' ∉ (line.splitOn '\t').getD 11 [] := by
    rw [List.getD_eq_getElem _ _ h11lt]
    exact mem_splitOn_not '\t' line _ (List.getElem_mem h11lt)
  by_cases h11 : jsTrim ((line.splitOn '\t').getD 11 []) = []
  · -- replaced: old contents whitespace-only
    have hann : Offline.annotateCols (line.splitOn '\t') =
        (line.splitOn '\t').set 11
          (Offline.getCEFRLevelOffline
            (String.mk (jsTrim ((line.splitOn '\t').getD 3 [])))).data := by
      unfold Offline.annotateCols
      rw [if_neg h3, if_pos h11]
    have hproc : Offline.processLine line = ['\t'].intercalate
        ((line.splitOn '\t').set 11
          (Offline.getCEFRLevelOffline
            (String.mk (jsTrim ((line.splitOn '\t').getD 3 [])))).data) := by
      unfold Offline.processLine
      rw [if_neg hpass, if_pos hlen, hann]
    have hrt : (Offline.processLine line).splitOn '\t' =
        (line.splitOn '\t').set 11
          (Offline.getCEFRLevelOffline
            (String.mk (jsTrim ((line.splitOn '\t').getD 3 [])))).data := by
      rw [hproc]
      exact List.splitOn_intercalate _ '\t'
        (splitOn_set_tab_free line _ (level_data_tab_free _))
        (set_ne_nil_of_twelve _ _ hlen)
    rw [hrt]
    refine ⟨List.length_set _ _ _, ?_, ?_⟩
    · intro j hj hj11
      rw [List.getD_eq_getElem?_getD, List.getD_eq_getElem?_getD,
        List.getElem?_set_ne (fun hc => hj11 hc.symm)]
      exact (List.getD_eq_getElem?_getD _ _ _).symm
    · rw [if_neg (fun hc => hc h11), List.getD_eq_getElem?_getD,
        List.getElem?_set_eq_of_lt _ h11lt]
      rfl
  · -- appended: old contents trim non-empty
    have hann : Offline.annotateCols (line.splitOn '\t') =
        (line.splitOn '\t').set 11
          ((line.splitOn '\t').getD 11 [] ++ ' ' ::
            (Offline.getCEFRLevelOffline
              (String.mk (jsTrim ((line.splitOn '\t').getD 3 [])))).data) := by
      unfold Offline.annotateCols
      rw [if_neg h3, if_neg h11]
    have hproc : Offline.processLine line = ['\t'].intercalate
        ((line.splitOn '\t').set 11
          ((line.splitOn '\t').getD 11 [] ++ ' ' ::
            (Offline.getCEFRLevelOffline
              (String.mk (jsTrim ((line.splitOn '\t').getD 3 [])))).data)) := by
      unfold Offline.processLine
      rw [if_neg hpass, if_pos hlen, hann]
    have hvfree : '\t' ∉ (line.splitOn '\t').getD 11 [] ++ ' ' ::
        (Offline.getCEFRLevelOffline
          (String.mk (jsTrim ((line.splitOn '\t').getD 3 [])))).data := by
      intro hc
      rcases List.mem_append.mp hc with hm | hm
      · exact hold_tab_free hm
      · rcases List.mem_cons.mp hm with hm | hm
        · exact absurd hm (by decide)
        · exact level_data_tab_free _ hm
    have hrt : (Offline.processLine line).splitOn '\t' =
        (line.splitOn '\t').set 11
          ((line.splitOn '\t').getD 11 [] ++ ' ' ::
            (Offline.getCEFRLevelOffline
              (String.mk (jsTrim ((line.splitOn '\t').getD 3 [])))).data) := by
      rw [hproc]
      exact List.splitOn_intercalate _ '\t'
        (splitOn_set_tab_free line _ hvfree)
        (set_ne_nil_of_twelve _ _ hlen)
    rw [hrt]
    refine ⟨List.length_set _ _ _, ?_, ?_⟩
    · intro j hj hj11
      rw [List.getD_eq_getElem?_getD, List.getD_eq_getElem?_getD,
        List.getElem?_set_ne (fun hc => hj11 hc.symm)]
      exact (List.getD_eq_getElem?_getD _ _ _).symm
    · rw [if_pos h11, List.getD_eq_getElem?_getD,
        List.getElem?_set_eq_of_lt _ h11lt]
      rfl

/-- Witness for claim C5 on a concrete line whose field 11 holds the tag X:
the annotator appends the computed Level after a space. -/
theorem claim_C5_witness :
    ((Offline.processLine ("a\tb\tc\tcat\te\tf\tg\th\ti\tj\tk\tX".data)).splitOn '\t').getD 11 []
      = "X A1".data :=
  ((claim_C5 ("a\tb\tc\tcat\te\tf\tg\th\ti\tj\tk\tX".data) (by decide) (by decide)
    (by decide)).2 (by decide)).2.2

/-- Claim C8: on a data line with at least 12 tab-separated fields, field 3
equal to the phrase This is a beautiful day and empty field 11, the offline
annotator computes B2 for the phrase (beautiful is absent from all tiers and
has length 9, and no other token classifies higher) and writes exactly B2
into field 11, leaving the other fields unchanged. -/
theorem claim_C8 : ∀ line : List Char,
    line.head? ≠ some '#' → jsTrim line ≠ [] →
    12 ≤ (line.splitOn '\t').length →
    (line.splitOn '\t').getD 3 [] = "This is a beautiful day".data →
    (line.splitOn '\t').getD 11 [] = [] →
    Offline.getCEFRLevelOffline "This is a beautiful day" = "B2" ∧
    Offline.processLine line =
      ['\t'].intercalate ((line.splitOn '\t').set 11 "B2".data) := by
  intro line h1 h2 hlen hf3 hf11
  have hB2 : Offline.getCEFRLevelOffline "This is a beautiful day" = "B2" := by
    decide
  refine ⟨hB2, ?_⟩
  have hpass : ¬(line.head? = some '#' ∨ jsTrim line = []) := by
    rintro (h | h)
    · exact h1 h
    · exact h2 h
  unfold Offline.processLine
  rw [if_neg hpass, if_pos hlen]
  unfold Offline.annotateCols
  rw [hf3, hf11]
  rw [if_neg (by decide : ¬ jsTrim ("This is a beautiful day".data) = [])]
  rw [if_pos (by decide : jsTrim ([] : List Char) = [])]
  have hv : (Offline.getCEFRLevelOffline
      (String.mk (jsTrim ("This is a beautiful day".data)))).data = "B2".data := by
    rw [show String.mk (jsTrim ("This is a beautiful day".data)) =
      "This is a beautiful day" from by decide, hB2]
  rw [hv]

/-- Witness for claim C8 on a concrete twelve-field line. -/
theorem claim_C8_witness :
    Offline.processLine
        ("w0\tw1\tw2\tThis is a beautiful day\tw4\tw5\tw6\tw7\tw8\tw9\tw10\t".data) =
      ['\t'].intercalate
        ((("w0\tw1\tw2\tThis is a beautiful day\tw4\tw5\tw6\tw7\tw8\tw9\tw10\t".data).splitOn
          '\t').set 11 "B2".data) :=
  (claim_C8 _ (by decide) (by decide) (by decide) (by decide) (by decide)).2

/-! Lemmas for the remote-fallback claim. -/

theorem api_queryAPI_failed_cases (api : Api.RemoteOutcome)
    (h : Api.remoteFailed api = true) :
    (∃ e, Api.queryAPI api = Except.error e) ∨ Api.queryAPI api = Except.ok "UNKNOWN" := by
  cases api with
  | timeout => exact Or.inl ⟨"Timeout", rfl⟩
  | netError e => exact Or.inl ⟨e, rfl⟩
  | unparsable => exact Or.inl ⟨"unparsable response", rfl⟩
  | parsed w t =>
    unfold Api.remoteFailed at h
    rw [Bool.and_eq_true, Bool.not_eq_true', Bool.not_eq_true'] at h
    right
    simp [Api.queryAPI, h.1, h.2]

theorem api_getCEFRLevel_fallback (s : String) (api : Api.RemoteOutcome)
    (h : Api.remoteFailed api = true) :
    Api.getCEFRLevel s api =
      (if (jsTrim s.data).contains ' ' then Api.analyzePhrase (jsTrim s.data)
       else Api.getBasicCEFRLevel (String.mk (jsTrim s.data))) := by
  rcases api_queryAPI_failed_cases api h with ⟨e, he⟩ | he
  · unfold Api.getCEFRLevel
    rw [he]
  · unfold Api.getCEFRLevel
    rw [he]
    have hcond : ¬((!("UNKNOWN" : String).data.isEmpty) = true ∧
        ("UNKNOWN" : String) ≠ "UNKNOWN") := by decide
    by_cases hb : (jsTrim s.data).contains ' ' = true
    · rw [if_pos hb, if_pos hb]
      show (if (!("UNKNOWN" : String).data.isEmpty) = true ∧
          ("UNKNOWN" : String) ≠ "UNKNOWN" then ("UNKNOWN" : String)
        else Api.analyzePhrase (jsTrim s.data)) = Api.analyzePhrase (jsTrim s.data)
      rw [if_neg hcond]
    · rw [if_neg hb, if_neg hb]
      show (if (!("UNKNOWN" : String).data.isEmpty) = true ∧
          ("UNKNOWN" : String) ≠ "UNKNOWN" then ("UNKNOWN" : String)
        else Api.getBasicCEFRLevel (String.mk (jsTrim s.data))) =
          Api.getBasicCEFRLevel (String.mk (jsTrim s.data))
      rw [if_neg hcond]

theorem api_local_chain_eq (s : String) :
    (if (jsTrim s.data).contains ' ' then Api.analyzePhrase (jsTrim s.data)
     else Api.getBasicCEFRLevel (String.mk (jsTrim s.data))) =
      Api.getBasicCEFRLevel s := by
  by_cases hb : (jsTrim s.data).contains ' ' = true
  · rw [if_pos hb]
    have hb2 : (jsTrim (jsLower s.data)).contains ' ' = true := by
      rw [jsTrim_jsLower_comm, contains_space_jsLower]
      exact hb
    unfold Api.getBasicCEFRLevel
    rw [hb2]
    rw [api_analyzePhrase_eq, api_analyzePhrase_eq, jsTrim_jsLower_comm,
      Offline.analyzePhrase_jsLower, if_pos rfl]
  · rw [if_neg hb]
    rw [Bool.not_eq_true] at hb
    have hb2 : (jsTrim (jsLower s.data)).contains ' ' = false := by
      rw [jsTrim_jsLower_comm, contains_space_jsLower]
      exact hb
    have hTL : jsTrim (jsLower (jsTrim s.data)) = jsTrim (jsLower s.data) := by
      rw [← jsTrim_jsLower_comm, jsTrim_idem]
    unfold Api.getBasicCEFRLevel
    rw [show (String.mk (jsTrim s.data)).data = jsTrim s.data from rfl, hTL, hb2]

/-- Claim C4: whenever the remote lookup ends in a timeout, a network error,
an unparsable response, or a response without a recognizable level field, the
classifier returns exactly what the local chain (lexicon, heuristic, phrase
aggregation) computes for the same item, and the result is always one of the
six Levels A1 to C2 — the failure is never fatal. -/
theorem claim_C4 : ∀ (s : String) (api : Api.RemoteOutcome),
    Api.remoteFailed api = true →
    Api.getCEFRLevel s api = Api.getBasicCEFRLevel s ∧
    Api.getCEFRLevel s api ∈ cefrLevels := by
  intro s api h
  have he : Api.getCEFRLevel s api = Api.getBasicCEFRLevel s := by
    rw [api_getCEFRLevel_fallback s api h, api_local_chain_eq s]
  refine ⟨he, ?_⟩
  rw [he, basic_eq_offline]
  exact Offline.getCEFRLevelOffline_mem_cefrLevels s

/-- Witness for claim C4: a timed-out lookup for an unknown word still
produces the local result. -/
theorem claim_C4_witness :
    Api.getCEFRLevel "xyzzyplugh" Api.RemoteOutcome.timeout =
      Api.getBasicCEFRLevel "xyzzyplugh" :=
  (claim_C4 "xyzzyplugh" Api.RemoteOutcome.timeout rfl).1
